import Mathlib

/-!
Shallow embedding of the Ax optimization service
(`services/ax_service.py`): a FastAPI facade that keeps a process-wide
map from experiment identifier to an `AxClient` of the external Ax
optimization engine.  The service handlers are embedded faithfully from
the source; the engine itself (`AxClient`) is not part of the
repository, so its behaviour is modelled from the spec's Engine Adapter
contract (spec sections 4.1-4.3 and 4.5), as marked on each definition.
Python floats are embedded as rationals; the global mutable
`experiments` dict is embedded as explicit state passing of an
association list with Python-dict assignment semantics.
-/

namespace AxService

/-- Dynamically typed parameter values (numeric, string, boolean), as in
the reference service where parameter values are arbitrary JSON scalars. -/
inductive Value where
  | num (q : ℚ)
  | str (s : String)
  | boolean (b : Bool)
deriving DecidableEq, Repr

/-- Pydantic model `Parameter` (ax_service.py lines 28-34): a declarative
parameter description with a type discriminator string and optional
payload fields. -/
structure Parameter where
  name : String
  type : String
  bounds : Option (List ℚ) := none
  values : Option (List Value) := none
  value : Option Value := none
  log_scale : Option Bool := some false
deriving DecidableEq, Repr

/-- Pydantic model `ExperimentRequest` (ax_service.py lines 36-40). -/
structure ExperimentRequest where
  name : String
  parameters : List Parameter
  objective_name : String := "score"
  minimize : Bool := false
deriving DecidableEq, Repr

/-- Trial status: a trial is Proposed when issued, Completed after a
successful completion, Failed is the remaining terminal state. -/
inductive TrialStatus where
  | proposed
  | completed
  | failed
deriving DecidableEq, Repr

/-- One trial: index, parameter assignment, status, and the recorded
outcome (present exactly when the trial is Completed). -/
structure Trial where
  index : ℕ
  parameters : List (String × Value)
  status : TrialStatus
  outcome : Option ℚ
deriving DecidableEq, Repr

/-- The parameter dictionaries the service builds for the engine
(ax_service.py lines 87-107): one of the three recognized variants. -/
inductive AxParam where
  | range (name : String) (bounds : Option (List ℚ)) (log_scale : Bool)
  | choice (name : String) (values : Option (List Value))
  | fixed (name : String) (value : Option Value)
deriving DecidableEq, Repr

/-- Name of a converted parameter. -/
def AxParam.name : AxParam → String
  | .range n _ _ => n
  | .choice n _ => n
  | .fixed n _ => n

/-- Validation failure kinds of the parameter space (spec section 4.1). -/
inductive ValidationKind where
  | duplicateParameter
  | invalidBounds
  | invalidLogScale
  | emptyChoiceSet
  | missingFixedValue
deriving DecidableEq, Repr

/-- Failure kinds raised by the engine; the service surfaces each of
them to the caller as an HTTP 500 whose detail string is the rendered
exception. -/
inductive EngineError where
  | validation (k : ValidationKind)
  | unknownTrial
  | alreadyCompleted
  | missingObjective
  | noObservationsYet
  | ioError
  | corruptCheckpoint
deriving DecidableEq, Repr

/-- Modelled from the spec: per-parameter validation of the engine
(spec section 4.1) — the `AxClient` performing it is outside the
repository.  Range needs numeric bounds `[lo, hi]` with `lo < hi`
(`InvalidBounds`) and, under log scale, `lo > 0` (`InvalidLogScale`);
Choice needs a non-empty value set (`EmptyChoiceSet`); Fixed needs a
value (`MissingFixedValue`). -/
def paramError : AxParam → Option ValidationKind
  | .range _ bounds ls =>
    match bounds with
    | some [lo, hi] =>
      if lo < hi then
        if ls = true ∧ lo ≤ 0 then some .invalidLogScale else none
      else some .invalidBounds
    | _ => some .invalidBounds
  | .choice _ vs =>
    match vs with
    | some (_ :: _) => none
    | _ => some .emptyChoiceSet
  | .fixed _ v =>
    match v with
    | some _ => none
    | none => some .missingFixedValue

/-- Engine-side experiment state: the spec of the experiment plus the
full trial ledger and the next fresh trial index.  Stands for the
`AxClient` object held in the service's `experiments` dict. -/
structure AxClientM where
  name : String
  params : List AxParam
  objective_name : String
  minimize : Bool
  trials : List Trial
  next_index : ℕ
deriving DecidableEq, Repr

/-- Modelled from the spec: `AxClient.create_experiment`
(spec sections 4.1 and 4.2) — rejects duplicate parameter names, then
the first per-parameter validation failure; on success the experiment
starts with an empty ledger and trial counter 0. -/
def engineCreate (name : String) (ps : List AxParam) (objective : String)
    (minimize : Bool) : Except EngineError AxClientM :=
  if (ps.map AxParam.name).Nodup then
    match ps.findSome? paramError with
    | some k => .error (.validation k)
    | none => .ok ⟨name, ps, objective, minimize, [], 0⟩
  else .error (.validation .duplicateParameter)

/-- Modelled from the spec: the engine's point selection is opaque
(spec section 4.2); any selection satisfies the adapter contract, so
the model picks a fixed representative of each parameter. -/
def pickValue : AxParam → String × Value
  | .range n bounds _ =>
    match bounds with
    | some (lo :: _) => (n, .num lo)
    | _ => (n, .num 0)
  | .choice n vs =>
    match vs with
    | some (v :: _) => (n, v)
    | _ => (n, .num 0)
  | .fixed n v => (n, v.getD (.num 0))

/-- Modelled from the spec: `AxClient.get_next_trial` / `suggest()`
(spec section 4.2) — returns a parameter assignment and a fresh,
monotonically increasing trial index, and appends the Proposed trial to
the ledger. -/
def AxClientM.suggest (c : AxClientM) : (List (String × Value) × ℕ) × AxClientM :=
  let ps := c.params.map pickValue
  ((ps, c.next_index),
   { c with trials := c.trials ++ [⟨c.next_index, ps, .proposed, none⟩],
            next_index := c.next_index + 1 })

/-- Mark the trial with the given index Completed with outcome `v`;
other trials are unchanged. -/
def completeAt (idx : ℕ) (v : ℚ) (t : Trial) : Trial :=
  if t.index = idx then ⟨t.index, t.parameters, .completed, some v⟩ else t

/-- Modelled from the spec: `AxClient.complete_trial` / `observe()`
(spec sections 4.2 and 4.3) — fails with `UnknownTrial` if the index
was never issued, `AlreadyCompleted` if the trial is already terminal;
the outcome dict must carry the experiment's objective name, and the
value under that key becomes the trial's recorded outcome. -/
def AxClientM.observe (c : AxClientM) (idx : ℕ) (raw : List (String × ℚ)) :
    Except EngineError AxClientM :=
  match c.trials.find? (fun t => t.index == idx) with
  | none => .error .unknownTrial
  | some t =>
    if t.status = .proposed then
      match List.lookup c.objective_name raw with
      | none => .error .missingObjective
      | some v => .ok { c with trials := c.trials.map (completeAt idx v) }
    else .error .alreadyCompleted

/-- Parameter assignment and outcome of every Completed trial, in
ledger order. -/
def completedScores (c : AxClientM) : List (List (String × Value) × ℚ) :=
  c.trials.filterMap fun t =>
    match t.status, t.outcome with
    | .completed, some v => some (t.parameters, v)
    | _, _ => none

/-- Keep the better of two scored points under the experiment's
direction (strictly better replaces, so the earlier of equals wins). -/
def pickBetter (minimize : Bool) (acc y : List (String × Value) × ℚ) :
    List (String × Value) × ℚ :=
  if (if minimize then y.2 < acc.2 else acc.2 < y.2) then y else acc

/-- Modelled from the spec: `AxClient.get_best_parameters` / `best()`
(spec section 4.2) — fails with `NoObservationsYet` when no trial has
been completed, otherwise returns the best completed point under the
configured minimize/maximize direction. -/
def AxClientM.best (c : AxClientM) :
    Except EngineError (List (String × Value) × ℚ) :=
  match completedScores c with
  | [] => .error .noObservationsYet
  | x :: xs => .ok (xs.foldl (pickBetter c.minimize) x)

/-- Modelled from the spec: the checkpoint payload format
(spec section 6) — a versioned envelope holding the experiment spec,
the ordered trial list and the engine counter state. -/
structure Checkpoint where
  version : ℕ
  name : String
  params : List AxParam
  objective_name : String
  minimize : Bool
  trials : List Trial
  next_index : ℕ
deriving DecidableEq, Repr

/-- Modelled from the spec: `AxClient.save_to_json_file` serialization
(spec section 4.5) — snapshot of the full experiment state. -/
def encodeCheckpoint (c : AxClientM) : Checkpoint :=
  ⟨1, c.name, c.params, c.objective_name, c.minimize, c.trials, c.next_index⟩

/-- Modelled from the spec: `AxClient.load_from_json_file`
(spec sections 4.5 and 6) — rebuilds the experiment from a version-1
envelope and rejects unknown versions. -/
def decodeCheckpoint (ck : Checkpoint) : Except EngineError AxClientM :=
  if ck.version = 1 then
    .ok ⟨ck.name, ck.params, ck.objective_name, ck.minimize, ck.trials, ck.next_index⟩
  else .error .corruptCheckpoint

/-- Errors a service handler can raise: `experimentNotFound` is the
explicit `HTTPException(404, "Experiment not found")`; `engineError e`
is the catch-all `HTTPException(500, str(e))` wrapping the engine
exception, whose rendered message identifies `e`. -/
inductive ServiceError where
  | experimentNotFound
  | engineError (e : EngineError)
deriving DecidableEq, Repr

/-- The process-wide `experiments` dict (ax_service.py line 52),
keyed by experiment identifier. -/
abbrev Registry := List (String × AxClientM)

/-- Checkpoint files on disk, keyed by filepath. -/
abbrev FileStore := List (String × Checkpoint)

/-- Python dict assignment `d[k] = v`: replaces the entry in place when
the key exists, otherwise appends. -/
def dictInsert {α : Type} (k : String) (v : α) :
    List (String × α) → List (String × α)
  | [] => [(k, v)]
  | p :: r => if p.1 = k then (k, v) :: r else p :: dictInsert k v r

/-- Success payload of `create_experiment` (ax_service.py lines 122-126):
the experiment id and the count of converted parameters. -/
structure CreateResponse where
  experiment_id : String
  parameters : ℕ
deriving DecidableEq, Repr

/-- Parameter conversion step of `create_experiment` (ax_service.py
lines 88-107): the three recognized type strings are converted, any
other type string falls through the if/elif chain and is dropped. -/
def convertParameter (p : Parameter) : Option AxParam :=
  if p.type = "range" then some (.range p.name p.bounds (p.log_scale.getD false))
  else if p.type = "choice" then some (.choice p.name p.values)
  else if p.type = "fixed" then some (.fixed p.name p.value)
  else none

/-- The `ax_parameters` list built by `create_experiment`
(ax_service.py lines 87-107). -/
def convertParameters (ps : List Parameter) : List AxParam :=
  ps.filterMap convertParameter

/-- Handler `POST /create_experiment` (ax_service.py lines 74-129):
converts the parameters, asks the engine to create the experiment, and
on success stores the client under `request.name` — overwriting any
existing entry, with no duplicate check.  On engine failure the
exception is re-raised as a 500 and the registry is untouched. -/
def create_experiment (req : ExperimentRequest) (reg : Registry) :
    Except ServiceError CreateResponse × Registry :=
  let axps := convertParameters req.parameters
  match engineCreate req.name axps req.objective_name req.minimize with
  | .error e => (.error (.engineError e), reg)
  | .ok client => (.ok ⟨req.name, axps.length⟩, dictInsert req.name client reg)

/-- Success payload of `get_next_trial` (ax_service.py lines 149-152). -/
structure TrialResponse where
  parameters : List (String × Value)
  trial_index : ℕ
deriving DecidableEq, Repr

/-- Handler `GET /get_next_trial/{experiment_id}` (ax_service.py lines
131-155): 404 when the id is absent, otherwise the engine issues the
next trial and the updated client replaces the registry entry. -/
def get_next_trial (eid : String) (reg : Registry) :
    Except ServiceError TrialResponse × Registry :=
  match List.lookup eid reg with
  | none => (.error .experimentNotFound, reg)
  | some c =>
    let r := c.suggest
    (.ok ⟨r.1.1, r.1.2⟩, dictInsert eid r.2 reg)

/-- Handler `POST /complete_trial/{experiment_id}/{trial_index}`
(ax_service.py lines 157-190): 404 when the id is absent; otherwise the
outcome is reported to the engine with `raw_data` keyed by the literal
string "score" (line 181), regardless of the experiment's configured
objective name. -/
def complete_trial (eid : String) (idx : ℕ) (score : ℚ) (reg : Registry) :
    Except ServiceError ℕ × Registry :=
  match List.lookup eid reg with
  | none => (.error .experimentNotFound, reg)
  | some c =>
    match c.observe idx [("score", score)] with
    | .error e => (.error (.engineError e), reg)
    | .ok c2 => (.ok idx, dictInsert eid c2 reg)

/-- Handler `GET /get_best/{experiment_id}` (ax_service.py lines
192-219): 404 when the id is absent, otherwise the engine's best point
and score; read-only. -/
def get_best (eid : String) (reg : Registry) :
    Except ServiceError (List (String × Value) × ℚ) × Registry :=
  match List.lookup eid reg with
  | none => (.error .experimentNotFound, reg)
  | some c =>
    match c.best with
    | .error e => (.error (.engineError e), reg)
    | .ok b => (.ok b, reg)

/-- Handler `GET /get_trials/{experiment_id}` (ax_service.py lines
221-236): 404 when the id is absent, otherwise the full trial list;
read-only. -/
def get_trials (eid : String) (reg : Registry) :
    Except ServiceError (List Trial) × Registry :=
  match List.lookup eid reg with
  | none => (.error .experimentNotFound, reg)
  | some c => (.ok c.trials, reg)

/-- Handler `POST /save_checkpoint/{experiment_id}` (ax_service.py
lines 238-254): 404 when the id is absent, otherwise serializes the
client to the given filepath; the registry is untouched. -/
def save_checkpoint (eid fp : String) (reg : Registry) (fs : FileStore) :
    Except ServiceError String × Registry × FileStore :=
  match List.lookup eid reg with
  | none => (.error .experimentNotFound, reg, fs)
  | some c => (.ok fp, reg, dictInsert fp (encodeCheckpoint c) fs)

/-- Handler `POST /load_checkpoint` (ax_service.py lines 256-271):
reads and decodes the checkpoint, then stores the client under the
experiment's own name, overwriting any existing entry. -/
def load_checkpoint (fp : String) (reg : Registry) (fs : FileStore) :
    Except ServiceError String × Registry :=
  match List.lookup fp fs with
  | none => (.error (.engineError .ioError), reg)
  | some ck =>
    match decodeCheckpoint ck with
    | .error e => (.error (.engineError e), reg)
    | .ok c => (.ok c.name, dictInsert c.name c reg)

/-- The registry after `k` further `get_next_trial` calls on the same
experiment (the state threading a client performs when it polls the
service repeatedly). -/
def afterCalls (eid : String) (reg : Registry) : ℕ → Registry
  | 0 => reg
  | k + 1 => (get_next_trial eid (afterCalls eid reg k)).2

/-- The response of the `k`-th successive `get_next_trial` call
(0-based) on the given experiment. -/
def issuedAt (eid : String) (reg : Registry) (k : ℕ) :
    Except ServiceError TrialResponse :=
  (get_next_trial eid (afterCalls eid reg k)).1

/-- A parameter whose type string is one of the three variants the
conversion loop recognizes. -/
def recognizedType (p : Parameter) : Bool :=
  p.type == "range" || p.type == "choice" || p.type == "fixed"

/-- `s` is at least as good as `v` under the configured direction. -/
def optLE (minimize : Bool) (s v : ℚ) : Prop :=
  if minimize then s ≤ v else v ≤ s

/-! Concrete inputs used by the theorems below. -/

/-- A valid range parameter `x` over `[0, 10]`. -/
def rangeParamX : Parameter := ⟨"x", "range", some [0, 10], none, none, some false⟩

/-- Creation request for experiment "demo" with the single parameter `x`. -/
def demoReq : ExperimentRequest := ⟨"demo", [rangeParamX], "score", false⟩

/-- A "demo" client that has already issued trial 0. -/
def demoClient0 : AxClientM :=
  ⟨"demo", [.range "x" (some [0, 10]) false], "score", false,
   [⟨0, [("x", .num 0)], .proposed, none⟩], 1⟩

/-- The fresh client `create_experiment demoReq` builds. -/
def demoClientFresh : AxClientM :=
  ⟨"demo", [.range "x" (some [0, 10]) false], "score", false, [], 0⟩

/-- A registry already holding "demo". -/
def demoReg0 : Registry := [("demo", demoClient0)]

/-- A valid fixed parameter `x = 1`. -/
def fixedParamX : Parameter := ⟨"x", "fixed", none, none, some (.num 1), some false⟩

/-- Creation request whose objective name is "accuracy", not the
default "score". -/
def accReq : ExperimentRequest := ⟨"acc", [fixedParamX], "accuracy", false⟩

/-- The same request with the default objective name "score". -/
def scoreReq : ExperimentRequest := ⟨"acc", [fixedParamX], "score", false⟩

/-- Registry after creating `accReq` and issuing trial 0. -/
def accReg : Registry := (get_next_trial "acc" (create_experiment accReq []).2).2

/-- Registry after creating `scoreReq` and issuing trial 0. -/
def scoreReg : Registry := (get_next_trial "acc" (create_experiment scoreReq []).2).2

/-- Registry after additionally completing trial 0 with score 5. -/
def doneReg : Registry := (complete_trial "acc" 0 5 scoreReg).2

/-- The client stored in `doneReg`: one Completed trial with outcome 5. -/
def doneClient : AxClientM :=
  ⟨"acc", [.fixed "x" (some (.num 1))], "score", false,
   [⟨0, [("x", .num 1)], .completed, some 5⟩], 1⟩

/-- Request containing one recognized parameter and one of the
unrecognized type "banana". -/
def bananaReq : ExperimentRequest :=
  ⟨"b", [fixedParamX, ⟨"y", "banana", none, none, none, some false⟩],
   "score", false⟩

/-- The client `create_experiment bananaReq` builds: only the
recognized parameter survives. -/
def bananaClient : AxClientM :=
  ⟨"b", [.fixed "x" (some (.num 1))], "score", false, [], 0⟩

/-- Malformed request: two parameters with the same name "x". -/
def dupReq : ExperimentRequest := ⟨"d", [fixedParamX, fixedParamX], "score", false⟩

/-- Malformed request: a range parameter with inverted bounds. -/
def invReq : ExperimentRequest :=
  ⟨"d", [⟨"x", "range", some [10, 0], none, none, some false⟩], "score", false⟩

/-- Malformed request: a choice parameter with an empty value set. -/
def emptyChoiceReq : ExperimentRequest :=
  ⟨"d", [⟨"x", "choice", none, some [], none, some false⟩], "score", false⟩

/-- Malformed request: a fixed parameter with no value. -/
def noValueReq : ExperimentRequest :=
  ⟨"d", [⟨"x", "fixed", none, none, none, some false⟩], "score", false⟩

/-! Theorems. -/

/-- Looking up the inserted key finds the inserted value. -/
theorem lookup_dictInsert_self {α : Type} (k : String) (v : α)
    (r : List (String × α)) : List.lookup k (dictInsert k v r) = some v := by
  induction r with
  | nil => simp [dictInsert, List.lookup]
  | cons p r ih =>
    by_cases h : p.1 = k
    · simp [dictInsert, h, List.lookup]
    · simp only [dictInsert, if_neg h]
      have : (k == p.1) = false := by
        simp [beq_iff_eq]
        exact fun hk => h hk.symm
      cases p with
      | mk a b => simpa [List.lookup, this] using ih

/-- Inserting one key leaves lookups of every other key unchanged. -/
theorem lookup_dictInsert_ne {α : Type} (k k2 : String) (v : α)
    (r : List (String × α)) (h : k2 ≠ k) :
    List.lookup k2 (dictInsert k v r) = List.lookup k2 r := by
  induction r with
  | nil =>
    have : (k2 == k) = false := by simpa [beq_iff_eq] using h
    simp [dictInsert, List.lookup, this]
  | cons p r ih =>
    obtain ⟨a, b⟩ := p
    by_cases hp : a = k
    · have h2 : (k2 == k) = false := by simpa [beq_iff_eq] using h
      have h3 : (k2 == a) = false := by rw [hp]; exact h2
      simp [dictInsert, hp, List.lookup, h2, h3]
    · simp [dictInsert, hp, List.lookup, ih]

/-- Decoding the envelope produced by encoding restores the client. -/
theorem decodeCheckpoint_encodeCheckpoint (c : AxClientM) :
    decodeCheckpoint (encodeCheckpoint c) = .ok c := rfl

/-- After `k` successive `get_next_trial` calls the stored client's
trial counter has advanced by exactly `k`. -/
theorem afterCalls_lookup (eid : String) (reg : Registry) (c : AxClientM)
    (h : List.lookup eid reg = some c) (k : ℕ) :
    ∃ ck, List.lookup eid (afterCalls eid reg k) = some ck ∧
      ck.next_index = c.next_index + k := by
  induction k with
  | zero => exact ⟨c, h, rfl⟩
  | succ n ih =>
    obtain ⟨ck, hck, hni⟩ := ih
    refine ⟨ck.suggest.2, ?_, ?_⟩
    · show List.lookup eid (get_next_trial eid (afterCalls eid reg n)).2 = _
      simp [get_next_trial, hck, lookup_dictInsert_self]
    · show ck.next_index + 1 = c.next_index + (n + 1)
      omega

/-- The `k`-th successive `get_next_trial` call succeeds and returns
trial index `c.next_index + k`. -/
theorem issuedAt_ok (eid : String) (reg : Registry) (c : AxClientM)
    (h : List.lookup eid reg = some c) (k : ℕ) :
    ∃ resp, issuedAt eid reg k = .ok resp ∧
      resp.trial_index = c.next_index + k := by
  obtain ⟨ck, hck, hni⟩ := afterCalls_lookup eid reg c h k
  refine ⟨⟨ck.params.map pickValue, ck.next_index⟩, ?_, hni⟩
  show (get_next_trial eid (afterCalls eid reg k)).1 = _
  simp [get_next_trial, hck, AxClientM.suggest]

/-- C6: trial indices returned by successive successful `get_next_trial`
calls on one experiment are strictly increasing, hence no index is ever
issued twice: the engine hands out `next_index` and increments it on
every suggestion. -/
theorem c6_trial_indices_strictly_increasing (eid : String) (reg : Registry)
    (c : AxClientM) (h : List.lookup eid reg = some c) (j k : ℕ)
    (hjk : j < k) :
    ∃ rj rk, issuedAt eid reg j = .ok rj ∧ issuedAt eid reg k = .ok rk ∧
      rj.trial_index < rk.trial_index := by
  obtain ⟨rj, hj, hj2⟩ := issuedAt_ok eid reg c h j
  obtain ⟨rk, hk, hk2⟩ := issuedAt_ok eid reg c h k
  exact ⟨rj, rk, hj, hk, by omega⟩

/-- Witness for C6: on the registry holding "demo", calls 0 and 1
return trial indices 1 and 2 respectively. -/
theorem c6_trial_indices_strictly_increasing_witness :
    List.lookup "demo" demoReg0 = some demoClient0 ∧ (0 : ℕ) < 1 ∧
    ∃ rj rk, issuedAt "demo" demoReg0 0 = .ok rj ∧
      issuedAt "demo" demoReg0 1 = .ok rk ∧
      rj.trial_index < rk.trial_index :=
  ⟨rfl, by decide,
   c6_trial_indices_strictly_increasing "demo" demoReg0 demoClient0 rfl 0 1
     (by decide)⟩

/-- C7: saving an experiment to a checkpoint and loading that
checkpoint yields an experiment whose `get_trials` output equals the
original's exactly, and whose next `get_next_trial` returns an index
colliding with no trial previously issued in the experiment. -/
theorem c7_checkpoint_roundtrip (reg : Registry) (fs : FileStore)
    (eid fp : String) (c : AxClientM) (h : List.lookup eid reg = some c)
    (hwf : ∀ t ∈ c.trials, t.index < c.next_index) :
    ∃ fs2, save_checkpoint eid fp reg fs = (.ok fp, reg, fs2) ∧
    ∃ reg2, load_checkpoint fp reg fs2 = (.ok c.name, reg2) ∧
      (get_trials c.name reg2).1 = .ok c.trials ∧
      (get_trials eid reg).1 = .ok c.trials ∧
      ∃ resp, (get_next_trial c.name reg2).1 = .ok resp ∧
        ∀ t ∈ c.trials, t.index ≠ resp.trial_index := by
  refine ⟨dictInsert fp (encodeCheckpoint c) fs, ?_, ?_⟩
  · simp [save_checkpoint, h]
  refine ⟨dictInsert c.name c reg, ?_, ?_, ?_, ?_⟩
  · simp [load_checkpoint, lookup_dictInsert_self,
      decodeCheckpoint_encodeCheckpoint]
  · simp [get_trials, lookup_dictInsert_self]
  · simp [get_trials, h]
  · refine ⟨⟨c.params.map pickValue, c.next_index⟩, ?_, ?_⟩
    · simp [get_next_trial, lookup_dictInsert_self, AxClientM.suggest]
    · intro t ht
      exact Nat.ne_of_lt (hwf t ht)

/-- Witness for C7 on the "demo" experiment that has issued trial 0. -/
theorem c7_checkpoint_roundtrip_witness :
    List.lookup "demo" demoReg0 = some demoClient0 ∧
    (∀ t ∈ demoClient0.trials, t.index < demoClient0.next_index) ∧
    (∃ fs2, save_checkpoint "demo" "f" demoReg0 [] = (.ok "f", demoReg0, fs2) ∧
     ∃ reg2, load_checkpoint "f" demoReg0 fs2 = (.ok demoClient0.name, reg2) ∧
       (get_trials demoClient0.name reg2).1 = .ok demoClient0.trials ∧
       (get_trials "demo" demoReg0).1 = .ok demoClient0.trials ∧
       ∃ resp, (get_next_trial demoClient0.name reg2).1 = .ok resp ∧
         ∀ t ∈ demoClient0.trials, t.index ≠ resp.trial_index) :=
  ⟨rfl, by decide,
   c7_checkpoint_roundtrip demoReg0 [] "demo" "f" demoClient0 rfl (by decide)⟩

/-- C9: loading a checkpoint whose stored experiment name is already a
registry key succeeds and replaces that entry with the loaded client
(last-write-wins), leaving every other key's entry unchanged. -/
theorem c9_load_checkpoint_overwrites (reg : Registry) (fs : FileStore)
    (fp i : String) (c0 c : AxClientM) (ck : Checkpoint)
    (_hreg : List.lookup i reg = some c0)
    (hfs : List.lookup fp fs = some ck)
    (hdec : decodeCheckpoint ck = .ok c)
    (hname : c.name = i) :
    load_checkpoint fp reg fs = (.ok i, dictInsert i c reg) ∧
    List.lookup i (load_checkpoint fp reg fs).2 = some c ∧
    ∀ j, j ≠ i → List.lookup j (load_checkpoint fp reg fs).2 =
      List.lookup j reg := by
  have h1 : load_checkpoint fp reg fs = (.ok i, dictInsert i c reg) := by
    simp [load_checkpoint, hfs, hdec, hname]
  refine ⟨h1, ?_, ?_⟩
  · rw [h1]
    exact lookup_dictInsert_self i c reg
  · intro j hj
    rw [h1]
    exact lookup_dictInsert_ne i j c reg hj

/-- Witness for C9: a checkpoint named "demo" loaded over a registry
already holding "demo" replaces that entry. -/
theorem c9_load_checkpoint_overwrites_witness :
    List.lookup "demo" demoReg0 = some demoClient0 ∧
    (load_checkpoint "f" demoReg0 [("f", encodeCheckpoint demoClientFresh)] =
      (.ok "demo", dictInsert "demo" demoClientFresh demoReg0) ∧
     List.lookup "demo"
       (load_checkpoint "f" demoReg0
         [("f", encodeCheckpoint demoClientFresh)]).2 = some demoClientFresh ∧
     List.lookup "other"
       (load_checkpoint "f" demoReg0
         [("f", encodeCheckpoint demoClientFresh)]).2 =
       List.lookup "other" demoReg0) := by
  have h := c9_load_checkpoint_overwrites demoReg0
    [("f", encodeCheckpoint demoClientFresh)] "f" "demo" demoClient0
    demoClientFresh (encodeCheckpoint demoClientFresh) rfl rfl rfl rfl
  exact ⟨rfl, h.1, h.2.1, h.2.2 "other" (by decide)⟩

/-- C1: the claim says that creating an experiment under an identifier
already present in the registry fails with `DuplicateExperiment` and
leaves the existing entry unchanged.  The handler performs no duplicate
check at all: on a registry already holding "demo" (with one issued
trial), `create_experiment` for the same name succeeds and silently
replaces the stored client with a fresh one, losing the trial history. -/
theorem c1_create_silently_overwrites_duplicate :
    create_experiment demoReq demoReg0 =
      (.ok ⟨"demo", 1⟩, [("demo", demoClientFresh)]) ∧
    demoClientFresh ≠ demoClient0 ∧
    List.lookup "demo" [("demo", demoClientFresh)] ≠ some demoClient0 := by
  refine ⟨by rfl, by decide, by decide⟩

/-- C2: the claim says `CompleteTrial` records the outcome keyed by the
experiment's configured objective name.  The handler hardcodes the key
"score" (line 181): on an experiment configured with objective
"accuracy" that has issued trial 0, completion fails because the data
it sends carries no "accuracy" key, while the identical experiment
configured with objective "score" completes fine. -/
theorem c2_complete_trial_hardcodes_score_key :
    (get_trials "acc" accReg).1 = .ok [⟨0, [("x", .num 1)], .proposed, none⟩] ∧
    complete_trial "acc" 0 5 accReg =
      (.error (.engineError .missingObjective), accReg) ∧
    (complete_trial "acc" 0 5 scoreReg).1 = .ok 0 := by
  refine ⟨by rfl, by rfl, by rfl⟩

/-- C4: every operation taking an experiment identifier first checks
the registry and fails with `experimentNotFound` (the 404) when the
identifier is absent, leaving the registry (and the file store)
unchanged. -/
theorem c4_absent_experiment_not_found (eid : String) (reg : Registry)
    (fs : FileStore) (idx : ℕ) (score : ℚ) (fp : String)
    (h : List.lookup eid reg = none) :
    get_next_trial eid reg = (.error .experimentNotFound, reg) ∧
    complete_trial eid idx score reg = (.error .experimentNotFound, reg) ∧
    get_best eid reg = (.error .experimentNotFound, reg) ∧
    get_trials eid reg = (.error .experimentNotFound, reg) ∧
    save_checkpoint eid fp reg fs = (.error .experimentNotFound, reg, fs) := by
  refine ⟨?_, ?_, ?_, ?_, ?_⟩ <;>
    simp [get_next_trial, complete_trial, get_best, get_trials, save_checkpoint, h]

/-- Witness for C4 at the empty registry and identifier "nope". -/
theorem c4_absent_experiment_not_found_witness :
    List.lookup "nope" ([] : Registry) = none ∧
    get_next_trial "nope" [] = (.error .experimentNotFound, []) ∧
    complete_trial "nope" 0 1 [] = (.error .experimentNotFound, []) ∧
    get_best "nope" [] = (.error .experimentNotFound, []) ∧
    get_trials "nope" [] = (.error .experimentNotFound, []) ∧
    save_checkpoint "nope" "f" [] [] = (.error .experimentNotFound, [], []) := by
  have h := c4_absent_experiment_not_found "nope" [] [] 0 1 "f" (by decide)
  exact ⟨by decide, h.1, h.2.1, h.2.2.1, h.2.2.2.1, h.2.2.2.2⟩

/-- A parameter of unrecognized type converts to nothing. -/
theorem convertParameter_eq_none (p : Parameter)
    (h : recognizedType p = false) : convertParameter p = none := by
  simp only [recognizedType, Bool.or_eq_false_iff, beq_eq_false_iff_ne,
    ne_eq] at h
  obtain ⟨⟨h1, h2⟩, h3⟩ := h
  simp [convertParameter, h1, h2, h3]

/-- A parameter of recognized type converts to something. -/
theorem convertParameter_isSome (p : Parameter)
    (h : recognizedType p = true) : (convertParameter p).isSome := by
  simp only [recognizedType, Bool.or_eq_true, beq_iff_eq] at h
  rcases h with (h | h) | h <;> simp [convertParameter, h]

/-- Dropping the unrecognized parameters before conversion changes
nothing: the conversion loop already skips them. -/
theorem convertParameters_filter (ps : List Parameter) :
    convertParameters (ps.filter recognizedType) = convertParameters ps := by
  induction ps with
  | nil => rfl
  | cons p ps ih =>
    by_cases h : recognizedType p
    · simp only [convertParameters, List.filter_cons, h, if_true,
        List.filterMap_cons]
      cases hc : convertParameter p <;> simp [hc]
      all_goals exact ih
    · have hn : recognizedType p = false := by simpa using h
      simp [convertParameters, List.filter_cons, hn, List.filterMap_cons,
        convertParameter_eq_none p hn]
      exact ih

/-- The converted parameter list has exactly one entry per recognized
request parameter. -/
theorem convertParameters_length (ps : List Parameter) :
    (convertParameters ps).length = (ps.filter recognizedType).length := by
  induction ps with
  | nil => rfl
  | cons p ps ih =>
    by_cases h : recognizedType p
    · obtain ⟨a, ha⟩ := Option.isSome_iff_exists.mp (convertParameter_isSome p h)
      simp [convertParameters, List.filterMap_cons, ha, List.filter_cons, h]
      exact ih
    · have hn : recognizedType p = false := by simpa using h
      simp [convertParameters, List.filterMap_cons,
        convertParameter_eq_none p hn, List.filter_cons, hn]
      exact ih

/-- C10: a parameter whose type string is none of "range", "choice",
"fixed" does not make `create_experiment` fail: the whole call behaves
exactly as if that parameter had not been supplied, and the
"parameters" count of a success response counts only the recognized
parameters. -/
theorem c10_unrecognized_parameter_types_silently_dropped
    (req : ExperimentRequest) (reg : Registry) :
    create_experiment req reg =
      create_experiment
        ⟨req.name, req.parameters.filter recognizedType,
         req.objective_name, req.minimize⟩ reg ∧
    ∀ resp reg2, create_experiment req reg = (.ok resp, reg2) →
      resp.parameters = (req.parameters.filter recognizedType).length := by
  constructor
  · simp [create_experiment, convertParameters_filter]
  · intro resp reg2 hok
    simp only [create_experiment] at hok
    rcases hcr : engineCreate req.name (convertParameters req.parameters)
        req.objective_name req.minimize with e | client
    · rw [hcr] at hok
      simp at hok
    · rw [hcr] at hok
      simp only [Prod.mk.injEq, Except.ok.injEq] at hok
      rw [← hok.1]
      exact convertParameters_length req.parameters

/-- Witness for C10: creating `bananaReq` (one fixed parameter, one
"banana" parameter) succeeds and reports a count of 1. -/
theorem c10_unrecognized_parameter_types_silently_dropped_witness :
    create_experiment bananaReq [] = (.ok ⟨"b", 1⟩, [("b", bananaClient)]) ∧
    (⟨"b", 1⟩ : CreateResponse).parameters =
      (bananaReq.parameters.filter recognizedType).length :=
  ⟨by rfl,
   (c10_unrecognized_parameter_types_silently_dropped bananaReq []).2
     ⟨"b", 1⟩ [("b", bananaClient)] (by rfl)⟩

/-- `find?` misses when the sought index was never issued. -/
theorem find_trial_none (l : List Trial) (idx : ℕ)
    (h : idx ∉ l.map Trial.index) :
    l.find? (fun u => u.index == idx) = none := by
  induction l with
  | nil => rfl
  | cons u l ih =>
    have h1 : u.index ≠ idx := fun he => h (by simp [he])
    have h2 : idx ∉ l.map Trial.index := fun hm => h (by simp [hm])
    simp only [List.find?]
    rw [show (u.index == idx) = false by simpa using h1]
    exact ih h2

/-- Under distinct trial indices, `find?` returns exactly the trial
carrying the sought index. -/
theorem find_trial_eq (l : List Trial) (t : Trial) (idx : ℕ)
    (hnodup : (l.map Trial.index).Nodup) (ht : t ∈ l)
    (hidx : t.index = idx) :
    l.find? (fun u => u.index == idx) = some t := by
  induction l with
  | nil => cases ht
  | cons u l ih =>
    rcases List.mem_cons.mp ht with rfl | hmem
    · simp only [List.find?]
      rw [show (t.index == idx) = true by simpa using hidx]
    · have hin : idx ∈ l.map Trial.index :=
        hidx ▸ List.mem_map_of_mem Trial.index hmem
      have hu : u.index ≠ idx :=
        fun he => (List.nodup_cons.mp hnodup).1 (he ▸ hin)
      simp only [List.find?]
      rw [show (u.index == idx) = false by simpa using hu]
      exact ih (List.nodup_cons.mp hnodup).2 hmem

/-- C8: `complete_trial` distinguishes its failure kinds: an index the
experiment never issued fails with the engine's `unknownTrial`, while
an index whose trial is already terminal fails with
`alreadyCompleted`, and the two kinds differ. -/
theorem c8_complete_trial_error_kinds (eid : String) (reg : Registry)
    (c : AxClientM) (idx : ℕ) (score : ℚ)
    (h : List.lookup eid reg = some c) :
    (idx ∉ c.trials.map Trial.index →
       complete_trial eid idx score reg =
         (.error (.engineError .unknownTrial), reg)) ∧
    ((c.trials.map Trial.index).Nodup →
       ∀ t ∈ c.trials, t.index = idx → t.status ≠ .proposed →
         complete_trial eid idx score reg =
           (.error (.engineError .alreadyCompleted), reg)) ∧
    EngineError.unknownTrial ≠ EngineError.alreadyCompleted := by
  refine ⟨?_, ?_, by decide⟩
  · intro hn
    simp [complete_trial, h, AxClientM.observe, find_trial_none _ _ hn]
  · intro hnodup t ht hidx hst
    simp [complete_trial, h, AxClientM.observe,
      find_trial_eq c.trials t idx hnodup ht hidx, hst]

/-- Witness for C8 on the "acc" experiment whose trial 0 is Completed:
index 5 was never issued, index 0 is terminal. -/
theorem c8_complete_trial_error_kinds_witness :
    List.lookup "acc" doneReg = some doneClient ∧
    (5 : ℕ) ∉ doneClient.trials.map Trial.index ∧
    complete_trial "acc" 5 1 doneReg =
      (.error (.engineError .unknownTrial), doneReg) ∧
    complete_trial "acc" 0 1 doneReg =
      (.error (.engineError .alreadyCompleted), doneReg) := by
  have h1 := (c8_complete_trial_error_kinds "acc" doneReg doneClient 5 1
    (by rfl)).1 (by decide)
  have h2 := (c8_complete_trial_error_kinds "acc" doneReg doneClient 0 1
    (by rfl)).2.1 (by decide) ⟨0, [("x", .num 1)], .completed, some 5⟩
    (by decide) rfl (by decide)
  exact ⟨by rfl, by decide, h1, h2⟩

/-- `optLE` is reflexive. -/
theorem optLE_refl (m : Bool) (s : ℚ) : optLE m s s := by
  cases m <;> simp [optLE]

/-- `optLE` is transitive. -/
theorem optLE_trans (m : Bool) (a b c : ℚ) (h1 : optLE m a b)
    (h2 : optLE m b c) : optLE m a c := by
  cases m <;> simp [optLE] at * <;> linarith

/-- `pickBetter` returns one of its two arguments. -/
theorem pickBetter_eq_or (m : Bool) (x y : List (String × Value) × ℚ) :
    pickBetter m x y = x ∨ pickBetter m x y = y := by
  by_cases h : (if m then y.2 < x.2 else x.2 < y.2)
  · right; simp only [pickBetter, if_pos h]
  · left; simp only [pickBetter, if_neg h]

/-- `pickBetter` is at least as good as both of its arguments. -/
theorem pickBetter_optLE (m : Bool) (x y : List (String × Value) × ℚ) :
    optLE m (pickBetter m x y).2 x.2 ∧ optLE m (pickBetter m x y).2 y.2 := by
  cases m
  · by_cases h : x.2 < y.2
    · have he : pickBetter false x y = y := by simp [pickBetter, h]
      rw [he]
      exact ⟨le_of_lt h, le_refl y.2⟩
    · have he : pickBetter false x y = x := by simp [pickBetter, h]
      rw [he]
      exact ⟨le_refl x.2, le_of_not_lt h⟩
  · by_cases h : y.2 < x.2
    · have he : pickBetter true x y = y := by simp [pickBetter, h]
      rw [he]
      exact ⟨le_of_lt h, le_refl y.2⟩
    · have he : pickBetter true x y = x := by simp [pickBetter, h]
      rw [he]
      exact ⟨le_refl x.2, le_of_not_lt h⟩

/-- The selection fold returns one of the scored points. -/
theorem foldl_pickBetter_mem (m : Bool) (x : List (String × Value) × ℚ)
    (xs : List (List (String × Value) × ℚ)) :
    xs.foldl (pickBetter m) x ∈ x :: xs := by
  induction xs generalizing x with
  | nil => simp
  | cons y ys ih =>
    rw [List.foldl_cons]
    rcases List.mem_cons.mp (ih (pickBetter m x y)) with h1 | h1
    · rcases pickBetter_eq_or m x y with he | he
      · rw [h1, he]; exact List.mem_cons_self _ _
      · rw [h1, he]; exact List.mem_cons_of_mem _ (List.mem_cons_self _ _)
    · exact List.mem_cons_of_mem _ (List.mem_cons_of_mem _ h1)

/-- The selection fold is at least as good as every scored point. -/
theorem foldl_pickBetter_optLE (m : Bool) (x : List (String × Value) × ℚ)
    (xs : List (List (String × Value) × ℚ)) :
    ∀ y ∈ x :: xs, optLE m (xs.foldl (pickBetter m) x).2 y.2 := by
  induction xs generalizing x with
  | nil =>
    intro y hy
    rcases List.mem_cons.mp hy with rfl | hc
    · exact optLE_refl m _
    · cases hc
  | cons z zs ih =>
    intro y hy
    rw [List.foldl_cons]
    have hacc := ih (pickBetter m x z) (pickBetter m x z)
      (List.mem_cons_self _ _)
    rcases List.mem_cons.mp hy with rfl | hy2
    · exact optLE_trans m _ _ _ hacc (pickBetter_optLE m y z).1
    rcases List.mem_cons.mp hy2 with rfl | hy3
    · exact optLE_trans m _ _ _ hacc (pickBetter_optLE m x y).2
    · exact ih (pickBetter m x z) y (List.mem_cons_of_mem _ hy3)

/-- A scored point is in `completedScores` exactly when it is the
parameter assignment and outcome of a Completed trial. -/
theorem mem_completedScores (c : AxClientM) (ps : List (String × Value))
    (v : ℚ) :
    (ps, v) ∈ completedScores c ↔
      ∃ t ∈ c.trials, t.status = .completed ∧ t.outcome = some v ∧
        t.parameters = ps := by
  simp only [completedScores, List.mem_filterMap]
  constructor
  · rintro ⟨t, ht, he⟩
    refine ⟨t, ht, ?_⟩
    cases hs : t.status <;> cases ho : t.outcome <;> rw [hs, ho] at he <;>
      simp at he
    rcases he with ⟨h1, h2⟩
    exact ⟨rfl, by rw [h2], h1⟩
  · rintro ⟨t, ht, hs, ho, hp⟩
    exact ⟨t, ht, by rw [hs, ho]; simp [hp]⟩

/-- C5: with no Completed trial, `get_best` fails with the engine's
`noObservationsYet`; with at least one, it returns the outcome of a
Completed trial that is best among all Completed outcomes under the
experiment's minimize/maximize direction, together with that trial's
parameters. -/
theorem c5_get_best_matches_best_completed (eid : String) (reg : Registry)
    (c : AxClientM) (h : List.lookup eid reg = some c)
    (hwf : ∀ t ∈ c.trials, t.status = .completed → t.outcome.isSome) :
    ((∀ t ∈ c.trials, t.status ≠ .completed) →
       get_best eid reg = (.error (.engineError .noObservationsYet), reg)) ∧
    ((∃ t ∈ c.trials, t.status = .completed) →
       ∃ ps s, get_best eid reg = (.ok (ps, s), reg) ∧
         (∃ t ∈ c.trials, t.status = .completed ∧ t.outcome = some s ∧
            t.parameters = ps) ∧
         ∀ t ∈ c.trials, t.status = .completed → ∀ v, t.outcome = some v →
           optLE c.minimize s v) := by
  constructor
  · intro hno
    have hempty : completedScores c = [] := by
      simp only [completedScores, List.filterMap_eq_nil_iff]
      intro t ht
      cases hs : t.status <;> cases ho : t.outcome <;> simp
      exact absurd hs (hno t ht)
    simp [get_best, h, AxClientM.best, hempty]
  · rintro ⟨t, ht, hst⟩
    obtain ⟨v, hv⟩ := Option.isSome_iff_exists.mp (hwf t ht hst)
    have hmem : (t.parameters, v) ∈ completedScores c :=
      (mem_completedScores c t.parameters v).mpr ⟨t, ht, hst, hv, rfl⟩
    obtain ⟨x, xs, hcs⟩ :=
      List.exists_cons_of_ne_nil (List.ne_nil_of_mem hmem)
    set b := xs.foldl (pickBetter c.minimize) x with hb
    refine ⟨b.1, b.2, ?_, ?_, ?_⟩
    · simp [get_best, h, AxClientM.best, hcs]
    · have hbmem : b ∈ completedScores c := hcs ▸ foldl_pickBetter_mem _ x xs
      have := (mem_completedScores c b.1 b.2).mp hbmem
      exact this
    · intro u hu hus w hw
      have humem : (u.parameters, w) ∈ completedScores c :=
        (mem_completedScores c u.parameters w).mpr ⟨u, hu, hus, hw, rfl⟩
      have := foldl_pickBetter_optLE c.minimize x xs (u.parameters, w)
        (hcs ▸ humem)
      exact this

/-- Witness for C5 on the "acc" experiment with one Completed trial of
outcome 5. -/
theorem c5_get_best_matches_best_completed_witness :
    List.lookup "acc" doneReg = some doneClient ∧
    (∀ t ∈ doneClient.trials, t.status = .completed → t.outcome.isSome) ∧
    (∃ t ∈ doneClient.trials, t.status = .completed) ∧
    (∃ ps s, get_best "acc" doneReg = (.ok (ps, s), doneReg) ∧
       (∃ t ∈ doneClient.trials, t.status = .completed ∧
          t.outcome = some s ∧ t.parameters = ps) ∧
       ∀ t ∈ doneClient.trials, t.status = .completed →
         ∀ v, t.outcome = some v → optLE doneClient.minimize s v) := by
  have hex : ∃ t ∈ doneClient.trials, t.status = .completed :=
    ⟨⟨0, [("x", .num 1)], .completed, some 5⟩, by decide, rfl⟩
  exact ⟨by rfl, by decide, hex,
    (c5_get_best_matches_best_completed "acc" doneReg doneClient (by rfl)
      (by decide)).2 hex⟩

/-- The first parameter with a validation error determines the reported
kind when everything before it is valid. -/
theorem findSome_paramError_first (good : List AxParam) (p : AxParam)
    (rest : List AxParam) (hgood : ∀ q ∈ good, paramError q = none)
    (k : ValidationKind) (hp : paramError p = some k) :
    (good ++ p :: rest).findSome? paramError = some k := by
  induction good with
  | nil => simp [List.findSome?_cons, hp]
  | cons q good ih =>
    have hq : paramError q = none := hgood q (List.mem_cons_self _ _)
    rw [List.cons_append, List.findSome?_cons, hq]
    exact ih fun r hr => hgood r (List.mem_cons_of_mem _ hr)

/-- If converted-parameter names are distinct, every earlier converted
parameter is valid, and the parameter at the split point converts to a
parameter with validation error `k`, then creation fails with `k` and
the registry is unchanged. -/
theorem create_fails_with_kind (req : ExperimentRequest) (reg : Registry)
    (hnodup : ((convertParameters req.parameters).map AxParam.name).Nodup)
    (good : List Parameter) (p : Parameter) (rest : List Parameter)
    (hsplit : req.parameters = good ++ p :: rest)
    (hgood : ∀ q ∈ good, ∀ a, convertParameter q = some a → paramError a = none)
    (axp : AxParam) (hconv : convertParameter p = some axp)
    (k : ValidationKind) (hk : paramError axp = some k) :
    create_experiment req reg =
      (.error (.engineError (.validation k)), reg) := by
  have hfind : (convertParameters req.parameters).findSome? paramError =
      some k := by
    rw [hsplit]
    show ((good ++ p :: rest).filterMap convertParameter).findSome? paramError
      = some k
    rw [List.filterMap_append, List.filterMap_cons, hconv]
    apply findSome_paramError_first
    · intro q hq
      obtain ⟨q0, hq0, hq0c⟩ := List.mem_filterMap.mp hq
      exact hgood q0 hq0 q hq0c
    · exact hk
  simp [create_experiment, engineCreate, hnodup, hfind]

/-- C3: a malformed spec is rejected at creation with the validation
kind matching the malformation, and the registry is unchanged (no
entry is added): duplicate converted parameter names give
`duplicateParameter`; otherwise, for a spec splitting as valid
parameters followed by one malformed parameter, a range parameter with
inverted bounds gives `invalidBounds`, a choice parameter with an
empty value set gives `emptyChoiceSet`, and a fixed parameter with no
value gives `missingFixedValue`. -/
theorem c3_create_rejects_malformed_spec (req : ExperimentRequest)
    (reg : Registry) :
    (¬ ((convertParameters req.parameters).map AxParam.name).Nodup →
       create_experiment req reg =
         (.error (.engineError (.validation .duplicateParameter)), reg)) ∧
    (((convertParameters req.parameters).map AxParam.name).Nodup →
      ∀ good p rest, req.parameters = good ++ p :: rest →
        (∀ q ∈ good, ∀ a, convertParameter q = some a →
          paramError a = none) →
        ((∀ lo hi : ℚ, p.type = "range" → p.bounds = some [lo, hi] →
            hi ≤ lo →
            create_experiment req reg =
              (.error (.engineError (.validation .invalidBounds)), reg)) ∧
         (p.type = "choice" → p.values = some [] →
            create_experiment req reg =
              (.error (.engineError (.validation .emptyChoiceSet)), reg)) ∧
         (p.type = "fixed" → p.value = none →
            create_experiment req reg =
              (.error (.engineError (.validation .missingFixedValue)),
               reg)))) := by
  constructor
  · intro h
    simp [create_experiment, engineCreate, h]
  · intro hnodup good p rest hsplit hgood
    refine ⟨?_, ?_, ?_⟩
    · intro lo hi htype hb hle
      refine create_fails_with_kind req reg hnodup good p rest hsplit hgood
        (.range p.name (some [lo, hi]) (p.log_scale.getD false)) ?_
        .invalidBounds ?_
      · simp [convertParameter, htype, hb]
      · simp [paramError, not_lt.mpr hle]
    · intro htype hv
      refine create_fails_with_kind req reg hnodup good p rest hsplit hgood
        (.choice p.name (some [])) ?_ .emptyChoiceSet ?_
      · simp [convertParameter, htype, hv]
      · rfl
    · intro htype hv
      refine create_fails_with_kind req reg hnodup good p rest hsplit hgood
        (.fixed p.name none) ?_ .missingFixedValue ?_
      · simp [convertParameter, htype, hv]
      · rfl

/-- Witness for C3: each of the four malformations, at a concrete
request over the empty registry. -/
theorem c3_create_rejects_malformed_spec_witness :
    create_experiment dupReq [] =
      (.error (.engineError (.validation .duplicateParameter)), []) ∧
    create_experiment invReq [] =
      (.error (.engineError (.validation .invalidBounds)), []) ∧
    create_experiment emptyChoiceReq [] =
      (.error (.engineError (.validation .emptyChoiceSet)), []) ∧
    create_experiment noValueReq [] =
      (.error (.engineError (.validation .missingFixedValue)), []) := by
  refine ⟨?_, ?_, ?_, ?_⟩
  · exact (c3_create_rejects_malformed_spec dupReq []).1 (by decide)
  · exact (((c3_create_rejects_malformed_spec invReq []).2 (by decide)
      [] ⟨"x", "range", some [10, 0], none, none, some false⟩ [] rfl
      (by simp)).1 10 0 rfl rfl (by norm_num))
  · exact (((c3_create_rejects_malformed_spec emptyChoiceReq []).2 (by decide)
      [] ⟨"x", "choice", none, some [], none, some false⟩ [] rfl
      (by simp)).2.1 rfl rfl)
  · exact (((c3_create_rejects_malformed_spec noValueReq []).2 (by decide)
      [] ⟨"x", "fixed", none, none, none, some false⟩ [] rfl
      (by simp)).2.2 rfl rfl)

end AxService
